import Mathlib

/-!
Shallow embedding of the salary-enhancement engine of
`Salary-Calculator-2025-26` (`src/App.tsx`, `src/types.ts`).

Pay amounts and tabulated pay-scale values are JavaScript numbers in the
source; they are modelled as rationals (`ℚ`), and the percentage factors
`0.30` / `0.10` as the exact rationals `30/100` / `10/100`.  Grade (BPS)
identifiers are integers and the pay-scale maps are partial maps from an
integer grade to an ordered list of stage pay values; a grade missing
from the map is `none` (the JS object lookup yielding `undefined`).  The
two concrete tables (`PAY_SCALE_2017`, `PAY_SCALE_2022` from
`constants.ts`) are data, not logic; all results are stated for an
arbitrary table, so they hold for the shipped tables in particular.
-/

namespace SalaryCalc

/-- `SalaryInputs` from `src/types.ts`: the request record. -/
structure SalaryInputs where
  bps : Int
  wasPromoted : Bool
  currentRunningBasicPay : ℚ
  prePromotionBps : Int
  prePromotionBasicPay2017 : ℚ
deriving DecidableEq

/-- `CalculatedValues` from `src/types.ts`: the success record. -/
structure CalculatedValues where
  basic2017 : ℚ
  dra : ℚ
  runningPayIncrease : ℚ
  totalIncrease : ℚ
  currentBasicPay : ℚ
deriving DecidableEq

/-- `PayScale` from `src/types.ts`: a map from a BPS grade to its ordered
stage pay values; an absent grade is `none`. -/
def PayScale : Type := Int → Option (List ℚ)

/-- The tail of `calculateEnhancements` (`src/App.tsx` lines 44-52): the
positivity gate followed by the 30% DRA / 10% ad-hoc formula. -/
def computeEnhancement (basic2017 currentBasicPay : ℚ) : Option CalculatedValues :=
  if basic2017 ≤ 0 ∨ currentBasicPay ≤ 0 then
    none
  else
    some { basic2017 := basic2017
           dra := basic2017 * (30 / 100)
           runningPayIncrease := currentBasicPay * (10 / 100)
           totalIncrease := basic2017 * (30 / 100) + currentBasicPay * (10 / 100)
           currentBasicPay := currentBasicPay }

/-- `calculateEnhancements` (`src/App.tsx` lines 17-53).  The promoted
branch cross-checks `prePromotionBps` against the 2017 table and then
uses the caller-supplied `prePromotionBasicPay2017` verbatim; the
non-promoted branch indexes the 2017 table by the resolved stage, with
the `stageIndex < 0 || stageIndex >= length` bounds check of line 37.
All failure paths return `none` (the JS `null`). -/
def calculateEnhancements (pay2017 : PayScale) (inputs : SalaryInputs)
    (stage : Option Int) : Option CalculatedValues :=
  let currentBasicPay := inputs.currentRunningBasicPay
  let basic2017? : Option ℚ :=
    if inputs.wasPromoted then
      match pay2017 inputs.prePromotionBps with
      | none => none
      | some _ => some inputs.prePromotionBasicPay2017
    else
      match stage with
      | none => none
      | some stageIndex =>
        match pay2017 inputs.bps with
        | none => none
        | some scale =>
          if stageIndex < 0 ∨ (scale.length : Int) ≤ stageIndex then
            none
          else
            scale.get? stageIndex.toNat
  match basic2017? with
  | none => none
  | some basic2017 => computeEnhancement basic2017 currentBasicPay

/-- The downward scan of the stage-detection effect (`src/App.tsx` lines
177-183): starting from the highest index, return the first stage index
whose tabulated value is `≤ pay`, or `none` (`-1` in the JS) when no
stage matches.  The recursion visits the tail (the higher indices) first,
exactly as the JS loop counts `i` down from `length - 1`. -/
def findStage (scale : List ℚ) (pay : ℚ) : Option Nat :=
  match scale with
  | [] => none
  | v :: rest =>
    match findStage rest pay with
    | some i => some (i + 1)
    | none => if v ≤ pay then some 0 else none

/-- The below-minimum test of `src/App.tsx` line 169:
`currentRunningBasicPay < payScale2022ForBps[0]`.  On an empty stage
list the JS index read yields `undefined` and the `<` comparison is
false, so the guard does not fire. -/
def payBelowMinimum (scale : List ℚ) (pay : ℚ) : Bool :=
  match scale with
  | [] => false
  | v :: _ => decide (pay < v)

/-- The diagnostics the stage-detection effect can leave in its `error`
state: "Invalid BPS selected." (line 164), the below-minimum message
citing the grade and its stage-0 value (line 171), and the fallback
"Could not determine a stage" (line 191). -/
inductive StageError where
  | invalidBps : StageError
  | belowMinimum : Int → ℚ → StageError
  | noStage : StageError
deriving DecidableEq

/-- The stage-detection effect (`src/App.tsx` lines 153-197), as a pure
function from its read dependencies to the pair
`(foundStage, error)` it stores. -/
def detectStage (pay2022 : PayScale) (inputs : SalaryInputs) :
    Option Nat × Option StageError :=
  if inputs.wasPromoted then
    (none, none)
  else if 0 < inputs.currentRunningBasicPay ∧ 0 < inputs.bps then
    match pay2022 inputs.bps with
    | none => (none, some StageError.invalidBps)
    | some scale =>
      if payBelowMinimum scale inputs.currentRunningBasicPay then
        (none, some (StageError.belowMinimum inputs.bps (scale.headD 0)))
      else
        match findStage scale inputs.currentRunningBasicPay with
        | some i => (some i, none)
        | none => (none, some StageError.noStage)
  else
    (none, none)

/-- The validation errors of `handleCalculate` (`src/App.tsx` lines
224-233): non-positive pay fields in the promoted case, or no resolved
stage in the non-promoted case. -/
inductive PreCheckError where
  | nonPositivePay : PreCheckError
  | noStage : PreCheckError
deriving DecidableEq

/-- The fresh error check of `handleCalculate` (`src/App.tsx` lines
224-233), run before `calculateEnhancements` is invoked. -/
def preCheck (inputs : SalaryInputs) (foundStage : Option Nat) :
    Option PreCheckError :=
  if inputs.wasPromoted then
    if inputs.prePromotionBasicPay2017 ≤ 0 ∨ inputs.currentRunningBasicPay ≤ 0 then
      some PreCheckError.nonPositivePay
    else
      none
  else
    match foundStage with
    | none => some PreCheckError.noStage
    | some _ => none

/-- The end-to-end calculation the app performs on a click: stage
detection feeding `calculateEnhancements` (`handleCalculate`,
`src/App.tsx` line 242). -/
def calculate (pay2017 pay2022 : PayScale) (inputs : SalaryInputs) :
    Option CalculatedValues :=
  calculateEnhancements pay2017 inputs
    (((detectStage pay2022 inputs).1).map (Int.ofNat))

/-! ### Properties of the downward scan -/

/-- When the scan fails, every tabulated value is strictly above the pay:
no stage matched. -/
theorem findStage_eq_none (scale : List ℚ) (pay : ℚ)
    (h : findStage scale pay = none) :
    ∀ j, ∀ hj : j < scale.length, pay < scale.get ⟨j, hj⟩ := by
  induction scale with
  | nil => intro j hj; exact absurd hj (by simp)
  | cons v rest ih =>
    intro j hj
    cases hr : findStage rest pay with
    | some i => rw [findStage, hr] at h; exact absurd h (by simp)
    | none =>
      rw [findStage, hr] at h
      by_cases hv : v ≤ pay
      · rw [if_pos hv] at h; exact absurd h (by simp)
      · match j with
        | 0 => exact lt_of_not_le hv
        | k + 1 => exact ih hr k (Nat.lt_of_succ_lt_succ hj)

/-- When the scan returns stage `s`, the value at `s` is `≤ pay` and
every higher stage's value is `> pay`: `s` is the highest matching
index. -/
theorem findStage_spec (scale : List ℚ) (pay : ℚ) (s : Nat)
    (h : findStage scale pay = some s) :
    ∃ hs : s < scale.length, scale.get ⟨s, hs⟩ ≤ pay ∧
      ∀ j, ∀ hj : j < scale.length, s < j → pay < scale.get ⟨j, hj⟩ := by
  induction scale generalizing s with
  | nil => exact absurd h (by simp [findStage])
  | cons v rest ih =>
    cases hr : findStage rest pay with
    | some i =>
      rw [findStage, hr] at h
      have hs : s = i + 1 := by injection h with h0; omega
      subst hs
      obtain ⟨hi, hle, hmax⟩ := ih i hr
      refine ⟨Nat.succ_lt_succ hi, hle, ?_⟩
      intro j hj hsj
      match j with
      | k + 1 => exact hmax k (Nat.lt_of_succ_lt_succ hj) (Nat.lt_of_succ_lt_succ hsj)
    | none =>
      rw [findStage, hr] at h
      by_cases hv : v ≤ pay
      · rw [if_pos hv] at h
        have hs : s = 0 := by injection h with h0; omega
        subst hs
        refine ⟨Nat.succ_pos _, hv, ?_⟩
        intro j hj hsj
        match j with
        | k + 1 => exact findStage_eq_none rest pay hr k (Nat.lt_of_succ_lt_succ hj)
      · rw [if_neg hv] at h; exact absurd h (by simp)

/-- When the pay is at least the stage-0 value, the scan succeeds. -/
theorem findStage_isSome (scale : List ℚ) (pay v0 : ℚ)
    (hhead : scale.head? = some v0) (hmin : v0 ≤ pay) :
    ∃ s, findStage scale pay = some s := by
  match scale with
  | [] => exact absurd hhead (by simp)
  | v :: rest =>
    have hv : v = v0 := by simpa using hhead
    subst hv
    cases hr : findStage rest pay with
    | some i => exact ⟨i + 1, by rw [findStage, hr]⟩
    | none => exact ⟨0, by rw [findStage, hr, if_pos hmin]⟩

/-- A successful enhancement computation carries its first argument as the
`basic2017` (DRA base) field, unchanged. -/
theorem computeEnhancement_basic (b c : ℚ) (r : CalculatedValues)
    (h : computeEnhancement b c = some r) : r.basic2017 = b := by
  unfold computeEnhancement at h
  by_cases hg : b ≤ 0 ∨ c ≤ 0
  · rw [if_pos hg] at h; exact absurd h (by simp)
  · rw [if_neg hg] at h
    injection h with h0
    rw [← h0]

/-- C2: for strictly positive baseline and current pay, the enhancement
computation returns the record with `dra = baseline * 30/100`,
`runningPayIncrease = currentPay * 10/100`, `totalIncrease` their sum,
and the baseline and current pay echoed back unchanged. -/
theorem enhancement_formula (b c : ℚ) (hb : 0 < b) (hc : 0 < c) :
    computeEnhancement b c =
      some { basic2017 := b
             dra := b * (30 / 100)
             runningPayIncrease := c * (10 / 100)
             totalIncrease := b * (30 / 100) + c * (10 / 100)
             currentBasicPay := c } := by
  have hg : ¬(b ≤ 0 ∨ c ≤ 0) := by push_neg; exact ⟨hb, hc⟩
  rw [computeEnhancement, if_neg hg]

theorem enhancement_formula_witness :
    computeEnhancement 200 300 =
      some { basic2017 := 200
             dra := 200 * (30 / 100)
             runningPayIncrease := 300 * (10 / 100)
             totalIncrease := 200 * (30 / 100) + 300 * (10 / 100)
             currentBasicPay := 300 } :=
  enhancement_formula 200 300 (by norm_num) (by norm_num)

/-- C3: with `wasPromoted = true`, the calculation fails when the 2017
table has no entry for the pre-promotion grade; on success the DRA base
is exactly the caller-supplied `prePromotionBasicPay2017`; and the result
does not depend on the resolved stage argument at all. -/
theorem promoted_uses_supplied_baseline (pay2017 : PayScale)
    (inputs : SalaryInputs) (stage stage2 : Option Int)
    (hprom : inputs.wasPromoted = true) :
    (pay2017 inputs.prePromotionBps = none →
      calculateEnhancements pay2017 inputs stage = none) ∧
    (∀ r, calculateEnhancements pay2017 inputs stage = some r →
      r.basic2017 = inputs.prePromotionBasicPay2017) ∧
    calculateEnhancements pay2017 inputs stage =
      calculateEnhancements pay2017 inputs stage2 := by
  refine ⟨?_, ?_, ?_⟩
  · intro hnone
    simp [calculateEnhancements, hprom, hnone]
  · intro r hr
    cases htab : pay2017 inputs.prePromotionBps with
    | none => simp [calculateEnhancements, hprom, htab] at hr
    | some sc =>
      simp [calculateEnhancements, hprom, htab] at hr
      exact computeEnhancement_basic _ _ r hr
  · simp [calculateEnhancements, hprom]

/-- C6: with `wasPromoted = true` and a non-positive pre-promotion
baseline or current pay, the `handleCalculate` pre-check reports the
non-positive-pay error and the calculation itself produces no result. -/
theorem promoted_nonpositive_pay_rejected (pay2017 : PayScale)
    (inputs : SalaryInputs) (stage : Option Int) (foundStage : Option Nat)
    (hprom : inputs.wasPromoted = true)
    (hbad : inputs.prePromotionBasicPay2017 ≤ 0 ∨
      inputs.currentRunningBasicPay ≤ 0) :
    preCheck inputs foundStage = some PreCheckError.nonPositivePay ∧
    calculateEnhancements pay2017 inputs stage = none := by
  constructor
  · simp [preCheck, hprom, hbad]
  · cases htab : pay2017 inputs.prePromotionBps with
    | none => simp [calculateEnhancements, hprom, htab]
    | some sc => simp [calculateEnhancements, hprom, htab, computeEnhancement, hbad]

/-- C9: the end-to-end calculation is deterministic — two invocations on
inputs that agree field by field (against the same tables) return the
same result. -/
theorem calculate_deterministic (pay2017 pay2022 : PayScale)
    (i1 i2 : SalaryInputs)
    (h1 : i1.bps = i2.bps) (h2 : i1.wasPromoted = i2.wasPromoted)
    (h3 : i1.currentRunningBasicPay = i2.currentRunningBasicPay)
    (h4 : i1.prePromotionBps = i2.prePromotionBps)
    (h5 : i1.prePromotionBasicPay2017 = i2.prePromotionBasicPay2017) :
    calculate pay2017 pay2022 i1 = calculate pay2017 pay2022 i2 := by
  have h : i1 = i2 := by
    cases i1; cases i2; simp_all
  rw [h]

/-- C10: when promoted, the calculation ignores the current grade and the
resolved stage; when not promoted, it ignores the pre-promotion grade
and the pre-promotion baseline pay. -/
theorem branch_noninterference (pay2017 : PayScale)
    (i1 i2 : SalaryInputs) (s1 s2 : Option Int) :
    (i1.wasPromoted = true → i2.wasPromoted = true →
      i1.currentRunningBasicPay = i2.currentRunningBasicPay →
      i1.prePromotionBps = i2.prePromotionBps →
      i1.prePromotionBasicPay2017 = i2.prePromotionBasicPay2017 →
      calculateEnhancements pay2017 i1 s1 = calculateEnhancements pay2017 i2 s2) ∧
    (i1.wasPromoted = false → i2.wasPromoted = false →
      i1.bps = i2.bps →
      i1.currentRunningBasicPay = i2.currentRunningBasicPay →
      calculateEnhancements pay2017 i1 s1 = calculateEnhancements pay2017 i2 s1) := by
  constructor
  · intro hp1 hp2 hc hb hpp
    simp [calculateEnhancements, hp1, hp2, hc, hb, hpp]
  · intro hp1 hp2 hb hc
    simp [calculateEnhancements, hp1, hp2, hb, hc]

/-- C1: for a non-promoted input whose grade is in the current table and
whose (positive) current pay is at least the grade's stage-0 value, stage
detection succeeds with a stage `s` whose tabulated value is `≤`
the current pay, and `s` is either the last stage or the next stage's
value is strictly above the current pay — the floor property. -/
theorem stage_resolution_floor (pay2022 : PayScale) (inputs : SalaryInputs)
    (scale : List ℚ) (v0 : ℚ)
    (hprom : inputs.wasPromoted = false)
    (hpay : 0 < inputs.currentRunningBasicPay) (hbps : 0 < inputs.bps)
    (htab : pay2022 inputs.bps = some scale)
    (hhead : scale.head? = some v0)
    (hmin : v0 ≤ inputs.currentRunningBasicPay) :
    ∃ s, detectStage pay2022 inputs = (some s, none) ∧
      ∃ hs : s < scale.length,
        scale.get ⟨s, hs⟩ ≤ inputs.currentRunningBasicPay ∧
        (s + 1 = scale.length ∨ ∃ hs1 : s + 1 < scale.length,
          inputs.currentRunningBasicPay < scale.get ⟨s + 1, hs1⟩) := by
  obtain ⟨s, hfind⟩ := findStage_isSome scale _ v0 hhead hmin
  have hbm : payBelowMinimum scale inputs.currentRunningBasicPay = false := by
    cases scale with
    | nil => rfl
    | cons v rest =>
      have hv : v = v0 := by simpa using hhead
      subst hv
      simp [payBelowMinimum, not_lt.2 hmin]
  refine ⟨s, ?_, ?_⟩
  · simp [detectStage, hprom, hpay, hbps, htab, hbm, hfind]
  · obtain ⟨hs, hle, hmax⟩ := findStage_spec scale _ s hfind
    refine ⟨hs, hle, ?_⟩
    rcases Nat.lt_or_ge (s + 1) scale.length with h1 | h1
    · exact Or.inr ⟨h1, hmax (s + 1) h1 (Nat.lt_succ_self s)⟩
    · exact Or.inl (le_antisymm (Nat.succ_le_of_lt hs) h1)

/-- C4: for a non-promoted input whose stage resolves to `s`, the
calculation fails (returns `none`) when the grade is absent from the
2017 table or `s` is out of range for that grade's 2017 sequence, and on
success the DRA base is exactly the 2017 table's value at position `s`. -/
theorem nonpromoted_historical_lookup (pay2017 pay2022 : PayScale)
    (inputs : SalaryInputs) (s : Nat)
    (hprom : inputs.wasPromoted = false)
    (hstage : (detectStage pay2022 inputs).1 = some s) :
    (pay2017 inputs.bps = none →
      calculateEnhancements pay2017 inputs (some (s : Int)) = none) ∧
    (∀ hist, pay2017 inputs.bps = some hist →
      (hist.length ≤ s →
        calculateEnhancements pay2017 inputs (some (s : Int)) = none) ∧
      (∀ hs : s < hist.length, ∀ r,
        calculateEnhancements pay2017 inputs (some (s : Int)) = some r →
        r.basic2017 = hist.get ⟨s, hs⟩)) := by
  constructor
  · intro hnone
    simp [calculateEnhancements, hprom, hnone]
  · intro hist htab
    constructor
    · intro hout
      simp [calculateEnhancements, hprom, htab, hout]
    · intro hs r hr
      have h1 : ¬((s : Int) < 0) := not_lt.2 (Int.natCast_nonneg s)
      have h2 : ¬(hist.length ≤ s) := not_le.2 hs
      simp [calculateEnhancements, hprom, htab, h1, h2] at hr
      rw [List.getElem?_eq_getElem hs] at hr
      rw [List.get_eq_getElem]
      exact computeEnhancement_basic _ _ r hr

/-- C5: for a non-promoted input whose grade is in the current table and
whose (positive) current pay is strictly below the grade's stage-0
value, stage detection returns no stage together with the below-minimum
diagnostic carrying the grade and that exact stage-0 minimum. -/
theorem stage_resolution_below_minimum (pay2022 : PayScale)
    (inputs : SalaryInputs) (scale : List ℚ) (v0 : ℚ)
    (hprom : inputs.wasPromoted = false)
    (hpay : 0 < inputs.currentRunningBasicPay) (hbps : 0 < inputs.bps)
    (htab : pay2022 inputs.bps = some scale)
    (hhead : scale.head? = some v0)
    (hmin : inputs.currentRunningBasicPay < v0) :
    detectStage pay2022 inputs =
      (none, some (StageError.belowMinimum inputs.bps v0)) := by
  cases scale with
  | nil => exact absurd hhead (by simp)
  | cons v rest =>
    have hv : v = v0 := by simpa using hhead
    subst hv
    simp [detectStage, hprom, hpay, hbps, htab, payBelowMinimum, hmin]

/-- C7: under the non-decreasing invariant on a grade's stage values,
once the below-minimum check has passed (the pay is at least the stage-0
value) the downward scan always finds a stage: its absent branch is
unreachable. -/
theorem scan_absent_unreachable (scale : List ℚ) (pay v0 : ℚ)
    (hmono : List.Sorted (· ≤ ·) scale)
    (hhead : scale.head? = some v0) (hmin : v0 ≤ pay) :
    findStage scale pay ≠ none := by
  obtain ⟨s, hs⟩ := findStage_isSome scale pay v0 hhead hmin
  simp [hs]

/-- C8 (amended): with non-decreasing stage values, a pay exactly equal
to the tabulated value at stage `i` resolves to a stage `j ≥ i` bearing
that same tabulated value — never a stage below `i` — and when the value
at stage `i + 1` is strictly larger (in particular for strictly
increasing scales, or when `i` is the last stage), `j` is `i` itself. -/
theorem exact_stage_value_resolution (scale : List ℚ) (i : Nat)
    (hmono : List.Sorted (· ≤ ·) scale) (hi : i < scale.length) :
    ∃ j, ∃ hj : j < scale.length,
      findStage scale (scale.get ⟨i, hi⟩) = some j ∧ i ≤ j ∧
      scale.get ⟨j, hj⟩ = scale.get ⟨i, hi⟩ ∧
      ((∀ hsi : i + 1 < scale.length,
          scale.get ⟨i, hi⟩ < scale.get ⟨i + 1, hsi⟩) → j = i) := by
  cases hf : findStage scale (scale.get ⟨i, hi⟩) with
  | none =>
    exact absurd (findStage_eq_none scale _ hf i hi) (lt_irrefl _)
  | some j =>
    obtain ⟨hj, hle, hmax⟩ := findStage_spec scale _ j hf
    have hij : i ≤ j := by
      by_contra hc
      push_neg at hc
      exact absurd (hmax i hi hc) (lt_irrefl _)
    have hji : scale.get ⟨j, hj⟩ = scale.get ⟨i, hi⟩ := by
      refine le_antisymm hle ?_
      exact hmono.rel_get_of_le (show (⟨i, hi⟩ : Fin scale.length) ≤ ⟨j, hj⟩ from hij)
    refine ⟨j, hj, rfl, hij, hji, ?_⟩
    intro hstrict
    by_contra hne
    have hlt : i < j := lt_of_le_of_ne hij (fun h => hne h.symm)
    have hsi : i + 1 < scale.length :=
      Nat.lt_of_le_of_lt (Nat.succ_le_of_lt hlt) hj
    have h1 : scale.get ⟨i, hi⟩ < scale.get ⟨i + 1, hsi⟩ := hstrict hsi
    have h2 : scale.get ⟨i + 1, hsi⟩ ≤ scale.get ⟨j, hj⟩ :=
      hmono.rel_get_of_le
        (show (⟨i + 1, hsi⟩ : Fin scale.length) ≤ ⟨j, hj⟩ from Nat.succ_le_of_lt hlt)
    rw [hji] at h2
    exact absurd (lt_of_lt_of_le h1 h2) (lt_irrefl _)

/-! ### Concrete instances -/

/-- A small current-period table with one grade. -/
def egCurrentTable : PayScale := fun b => if b = 16 then some [10, 20, 30] else none

/-- A small historical-period table with one grade. -/
def egHistTable : PayScale := fun b => if b = 16 then some [5, 8, 13] else none

/-- A historical-period table containing only grade 15. -/
def egHist15 : PayScale := fun b => if b = 15 then some [24100] else none

/-- A non-promoted request whose pay sits between stages 1 and 2. -/
def egNonPromoted : SalaryInputs :=
  { bps := 16, wasPromoted := false, currentRunningBasicPay := 25,
    prePromotionBps := 0, prePromotionBasicPay2017 := 0 }

/-- A non-promoted request whose pay is below the grade minimum. -/
def egBelowMin : SalaryInputs :=
  { bps := 16, wasPromoted := false, currentRunningBasicPay := 5,
    prePromotionBps := 0, prePromotionBasicPay2017 := 0 }

/-- A promoted request with positive pay fields. -/
def egPromoted : SalaryInputs :=
  { bps := 1, wasPromoted := true, currentRunningBasicPay := 50,
    prePromotionBps := 15, prePromotionBasicPay2017 := 30 }

/-- The same promoted request with a different current grade. -/
def egPromotedAlt : SalaryInputs :=
  { bps := 9, wasPromoted := true, currentRunningBasicPay := 50,
    prePromotionBps := 15, prePromotionBasicPay2017 := 30 }

/-- A promoted request with a zero pre-promotion baseline. -/
def egPromotedZero : SalaryInputs :=
  { bps := 1, wasPromoted := true, currentRunningBasicPay := 50,
    prePromotionBps := 15, prePromotionBasicPay2017 := 0 }

/-- A current-period table whose grade 7 has two tied stage values
(non-decreasing, as the data invariant allows). -/
def tiedTable : PayScale := fun b => if b = 7 then some [100, 100] else none

/-- A non-promoted request on grade 7 with pay equal to both tied stage
values. -/
def tiedInputs : SalaryInputs :=
  { bps := 7, wasPromoted := false, currentRunningBasicPay := 100,
    prePromotionBps := 0, prePromotionBasicPay2017 := 0 }

/-- Field-by-field copy of `detInputsB` for the determinism witness. -/
def detInputsA : SalaryInputs :=
  { bps := 16, wasPromoted := false, currentRunningBasicPay := 47700,
    prePromotionBps := 15, prePromotionBasicPay2017 := 24100 }

/-- Field-by-field copy of `detInputsA` for the determinism witness. -/
def detInputsB : SalaryInputs :=
  { bps := 16, wasPromoted := false, currentRunningBasicPay := 47700,
    prePromotionBps := 15, prePromotionBasicPay2017 := 24100 }

/-! ### Witnesses and counterexamples -/

theorem stage_resolution_floor_witness :
    ∃ s, detectStage egCurrentTable egNonPromoted = (some s, none) ∧
      ∃ hs : s < ([10, 20, 30] : List ℚ).length,
        ([10, 20, 30] : List ℚ).get ⟨s, hs⟩ ≤ egNonPromoted.currentRunningBasicPay ∧
        (s + 1 = ([10, 20, 30] : List ℚ).length ∨
          ∃ hs1 : s + 1 < ([10, 20, 30] : List ℚ).length,
            egNonPromoted.currentRunningBasicPay < ([10, 20, 30] : List ℚ).get ⟨s + 1, hs1⟩) :=
  stage_resolution_floor egCurrentTable egNonPromoted [10, 20, 30] 10
    rfl (by decide) (by decide) rfl rfl (by decide)

theorem promoted_uses_supplied_baseline_witness :
    (egHist15 egPromoted.prePromotionBps = none →
      calculateEnhancements egHist15 egPromoted none = none) ∧
    (∀ r, calculateEnhancements egHist15 egPromoted none = some r →
      r.basic2017 = egPromoted.prePromotionBasicPay2017) ∧
    calculateEnhancements egHist15 egPromoted none =
      calculateEnhancements egHist15 egPromoted (some 3) :=
  promoted_uses_supplied_baseline egHist15 egPromoted none (some 3) rfl

theorem nonpromoted_historical_lookup_witness :
    (egHistTable egNonPromoted.bps = none →
      calculateEnhancements egHistTable egNonPromoted (some ((1 : Nat) : Int)) = none) ∧
    (∀ hist, egHistTable egNonPromoted.bps = some hist →
      (hist.length ≤ 1 →
        calculateEnhancements egHistTable egNonPromoted (some ((1 : Nat) : Int)) = none) ∧
      (∀ hs : 1 < hist.length, ∀ r,
        calculateEnhancements egHistTable egNonPromoted (some ((1 : Nat) : Int)) = some r →
        r.basic2017 = hist.get ⟨1, hs⟩)) :=
  nonpromoted_historical_lookup egHistTable egCurrentTable egNonPromoted 1
    rfl (by decide)

theorem stage_resolution_below_minimum_witness :
    detectStage egCurrentTable egBelowMin =
      (none, some (StageError.belowMinimum 16 10)) :=
  stage_resolution_below_minimum egCurrentTable egBelowMin [10, 20, 30] 10
    rfl (by decide) (by decide) rfl rfl (by decide)

theorem promoted_nonpositive_pay_rejected_witness :
    preCheck egPromotedZero (some 2) = some PreCheckError.nonPositivePay ∧
    calculateEnhancements egHist15 egPromotedZero none = none :=
  promoted_nonpositive_pay_rejected egHist15 egPromotedZero none (some 2)
    rfl (Or.inl (by decide))

theorem scan_absent_unreachable_witness :
    findStage [(10 : ℚ), 20] 15 ≠ none :=
  scan_absent_unreachable [10, 20] 15 10 (by decide) rfl (by decide)

theorem exact_stage_value_resolution_witness :
    ∃ j, ∃ hj : j < ([10, 20] : List ℚ).length,
      findStage [10, 20] (([10, 20] : List ℚ).get ⟨0, by decide⟩) = some j ∧ 0 ≤ j ∧
      ([10, 20] : List ℚ).get ⟨j, hj⟩ = ([10, 20] : List ℚ).get ⟨0, by decide⟩ ∧
      ((∀ hsi : 0 + 1 < ([10, 20] : List ℚ).length,
          ([10, 20] : List ℚ).get ⟨0, by decide⟩ <
            ([10, 20] : List ℚ).get ⟨0 + 1, hsi⟩) → j = 0) :=
  exact_stage_value_resolution [10, 20] 0 (by decide) (by decide)

/-- C8 counterexample: grade 7 of `tiedTable` has the non-decreasing
stage values `[100, 100]`; a pay of `100` equals the tabulated value at
stage 0, yet stage detection resolves to stage 1, not stage 0 — so a pay
equal to the value at stage `i` does not always resolve to `i` itself. -/
theorem exact_stage_value_counterexample :
    List.Sorted (· ≤ ·) [(100 : ℚ), 100] ∧
    tiedTable 7 = some [100, 100] ∧
    ([(100 : ℚ), 100]).get ⟨0, by decide⟩ = 100 ∧
    tiedInputs.currentRunningBasicPay = 100 ∧
    detectStage tiedTable tiedInputs = (some 1, none) :=
  ⟨by decide, rfl, rfl, rfl, by decide⟩

theorem calculate_deterministic_witness :
    calculate egHistTable egCurrentTable detInputsA =
      calculate egHistTable egCurrentTable detInputsB :=
  calculate_deterministic egHistTable egCurrentTable detInputsA detInputsB
    rfl rfl rfl rfl rfl

theorem branch_noninterference_witness :
    calculateEnhancements egHist15 egPromoted none =
      calculateEnhancements egHist15 egPromotedAlt (some 4) :=
  (branch_noninterference egHist15 egPromoted egPromotedAlt none (some 4)).1
    rfl rfl rfl rfl rfl

end SalaryCalc
